import Mathlib

/-!
Logger.cpp, a remote-logging client.

A shallow embedding of `src/Logger.cpp`: the log emitter `Log`, the threshold
setter `SetLogLevel`, the control listener `ReceiveData`, and the session
entry points `InitializeLog` and `ExitLog`.  Bytes are `Char`s, C strings are
byte lists read up to their first NUL, and the C library calls the program
makes (`snprintf`, `strftime`, `sscanf`) are interpreters over the format
strings that appear in the source.
-/

namespace Logger

/-! ## Constants of the source file -/

/-- The macro `SIZE_BUF`. -/
def SIZE_BUF : Nat := 1024

/-- The terminating byte of a C string. -/
def NUL : Char := Char.ofNat 0

/-! ## C strings and decimal rendering -/

/-- The C string that starts at a memory region: its bytes before the first NUL. -/
def cstr (mem : List Char) : List Char :=
  mem.takeWhile (fun c => c != NUL)

/-- The library function `strlen`. -/
def strlen (mem : List Char) : Nat :=
  (cstr mem).length

/-- The character of a decimal digit. -/
def digitChar (d : Nat) : Char := Char.ofNat (48 + d)

/-- Decimal digits of `n`, most significant first, pushed in front of `acc`;
`fuel` bounds the number of digits produced. -/
def utoaAux : Nat → Nat → List Char → List Char
  | 0, _, acc => acc
  | fuel + 1, n, acc =>
    if n < 10 then digitChar n :: acc
    else utoaAux fuel (n / 10) (digitChar (n % 10) :: acc)

/-- Decimal rendering of a natural number. -/
def utoa (n : Nat) : List Char := utoaAux (n + 1) n []

/-- Decimal rendering of an integer, as `%d` and `operator<<(int)` print it. -/
def itoa (i : Int) : List Char :=
  if i < 0 then '-' :: utoa i.natAbs else utoa i.natAbs

/-! ## `snprintf` -/

/-- An argument of a `printf`-style call. -/
inductive Arg where
  | str (s : List Char)
  | int (i : Int)

/-- The text a `printf`-style format describes: `%s` copies a C string
argument, `%d` prints an `int` argument in decimal, every other byte is
copied.  A conversion without a matching argument ends the text. -/
def formatText : List Char → List Arg → List Char
  | [], _ => []
  | c :: fmt, args =>
    if c = '%' then
      match fmt with
      | [] => []
      | k :: fmt' =>
        if k = 's' then
          match args with
          | Arg.str s :: args' => cstr s ++ formatText fmt' args'
          | _ => []
        else if k = 'd' then
          match args with
          | Arg.int i :: args' => itoa i ++ formatText fmt' args'
          | _ => []
        else []
    else c :: formatText fmt args

/-- The library function `snprintf(buf, size, fmt, ...)` on a buffer of `size`
zero bytes: at most `size - 1` bytes of the text are stored, followed by NUL;
the return value is the length of the whole text. -/
def snprintf (size : Nat) (fmt : List Char) (args : List Arg) : List Char × Int :=
  let text := formatText fmt args
  let stored := text.take (size - 1)
  (stored ++ List.replicate (size - stored.length) NUL, (text.length : Int))

/-! ## `strftime` -/

/-- The fields of `struct tm` that the format of `Log` reads. -/
structure Tm where
  tm_sec : Nat
  tm_min : Nat
  tm_hour : Nat
  tm_mday : Nat
  tm_mon : Nat
  tm_year : Int

/-- A number printed in a field of at least two digits, zero padded. -/
def pad2 (n : Nat) : List Char :=
  if n < 10 then '0' :: utoa n else utoa n

/-- One `strftime` conversion. -/
def strftimeConv (k : Char) (t : Tm) : List Char :=
  if k = 'Y' then itoa (t.tm_year + 1900)
  else if k = 'm' then pad2 (t.tm_mon + 1)
  else if k = 'd' then pad2 t.tm_mday
  else if k = 'H' then pad2 t.tm_hour
  else if k = 'M' then pad2 t.tm_min
  else if k = 'S' then pad2 t.tm_sec
  else []

/-- The text a `strftime` format describes for a broken-down time. -/
def strftimeText : List Char → Tm → List Char
  | [], _ => []
  | c :: fmt, t =>
    if c = '%' then
      match fmt with
      | [] => []
      | k :: fmt' => strftimeConv k t ++ strftimeText fmt' t
    else c :: strftimeText fmt t

/-- The library function `strftime(s, max, fmt, tm)`: the text when it fits the
array together with its terminator, and no defined content otherwise. -/
def strftime (max : Nat) (fmt : List Char) (t : Tm) : Option (List Char) :=
  let text := strftimeText fmt t
  if text.length < max then some text else none

/-! ## `sscanf` -/

/-- The library predicate `isspace` of the C locale. -/
def isspace (c : Char) : Bool :=
  c = ' ' || c = '\t' || c = '\n' || c = Char.ofNat 11 || c = Char.ofNat 12 || c = '\r'

/-- The library predicate `isdigit`. -/
def isdigit (c : Char) : Bool :=
  decide (48 ≤ c.toNat) && decide (c.toNat ≤ 57)

/-- The number a run of decimal digits denotes. -/
def digitsValue (ds : List Char) : Nat :=
  ds.foldl (fun acc c => 10 * acc + (c.toNat - 48)) 0

/-- The value `strtol` gives a sign and a run of digits: the number, clamped to
the range of a 64-bit `long`. -/
def strtol (neg : Bool) (ds : List Char) : Int :=
  if neg then max (-(digitsValue ds : Int)) (-(2 : Int) ^ 63)
  else min (digitsValue ds : Int) ((2 : Int) ^ 63 - 1)

/-- Narrowing of a `long` to a 32-bit `int`. -/
def toInt32 (v : Int) : Int :=
  (v + (2 : Int) ^ 31) % (2 : Int) ^ 32 - (2 : Int) ^ 31

/-- The conversion `%d` of `sscanf` on input whose leading white space is
gone: an optional sign and a non-empty run of digits.  Gives the value stored
and the rest of the input, or nothing on a matching failure.  The value is the
number when an `int` can hold it.  ISO C leaves the stored value open when it
cannot; the C library of an LP64 system computes the number with `strtol` and
stores it through a cast to `int`, which is what is modelled. -/
def scanInt (input : List Char) : Option (Int × List Char) :=
  let neg : Bool := input.head? = some '-'
  let body := if input.head? = some '-' ∨ input.head? = some '+' then input.tail else input
  let ds := body.takeWhile isdigit
  if ds = [] then none
  else some (toInt32 (strtol neg ds), body.dropWhile isdigit)

/-- The return value `EOF`. -/
def EOF : Int := -1

/-- What `sscanf` returns when it stops after storing `got`: the number of
stored values. -/
def matchFailure (got : List Int) : Int × List Int := ((got.length : Int), got)

/-- What `sscanf` returns when the input ends: `EOF` if nothing was stored. -/
def inputFailure (got : List Int) : Int × List Int :=
  (if got = [] then EOF else (got.length : Int), got)

/-- The matching loop of `sscanf`: a white-space byte of the format skips any
run of white space of the input, `%d` skips white space and converts an
integer, any other byte must equal the next input byte.  `got` are the values
stored so far. -/
def sscanfAux : List Char → List Char → List Int → Int × List Int
  | [], _, got => matchFailure got
  | c :: fmt, input, got =>
    if isspace c then sscanfAux fmt (input.dropWhile isspace) got
    else if c = '%' then
      match fmt with
      | [] => matchFailure got
      | k :: fmt' =>
        if k = 'd' then
          if input.dropWhile isspace = [] then inputFailure got
          else
            match scanInt (input.dropWhile isspace) with
            | none => matchFailure got
            | some (v, rest) => sscanfAux fmt' rest (got ++ [v])
        else matchFailure got
    else
      match input with
      | [] => inputFailure got
      | x :: rest => if x = c then sscanfAux fmt rest got else matchFailure got

/-- The library function `sscanf(str, fmt, ...)` for formats made of literal
bytes, white space and `%d`: the return value and the stored values. -/
def sscanf (str : List Char) (fmt : List Char) : Int × List Int :=
  sscanfAux fmt (cstr str) []

/-! ## Data model -/

/-- Modelled from the spec: the enumeration `LOG_LEVEL` of `Logger.h`, which is
not among the sources.  The spec orders it DEBUG < WARNING < ERROR < CRITICAL
and numbers the levels 0 to 3. -/
inductive LOG_LEVEL where
  | DEBUG
  | WARNING
  | ERROR
  | CRITICAL
  deriving DecidableEq, Repr

/-- The integer value of an enumerator. -/
def LOG_LEVEL.toInt : LOG_LEVEL → Int
  | .DEBUG => 0
  | .WARNING => 1
  | .ERROR => 2
  | .CRITICAL => 3

/-- The array `level_str` of `Log`. -/
def level_str : List (List Char) :=
  ["DEBUG".toList, "WARNING".toList, "ERROR".toList, "CRITICAL".toList]

/-- The globals of `Logger.cpp` together with the resources they name.
`log_level_current` holds the integer value of the stored enumerator;
`recv_thread_joinable` is `recv_thread.joinable()`; `socket_open` and
`mutex_log_ready` tell whether the descriptor in `fd_socket` is open and
whether `mutex_log` is initialised and not destroyed; `listeners` counts the
threads created into `thread_receive`. -/
structure State where
  fd_socket : Int
  log_level_current : Int
  is_running : Bool
  recv_thread_joinable : Bool
  socket_open : Bool
  mutex_log_ready : Bool
  listeners : Nat
  deriving DecidableEq, Repr

/-- The state at program start, from the initialisers of the globals:
`fd_socket = -1`, `log_level_current = DEBUG`, `is_running = true`, and a
default-constructed `recv_thread`. -/
def State.initial : State where
  fd_socket := -1
  log_level_current := LOG_LEVEL.DEBUG.toInt
  is_running := true
  recv_thread_joinable := false
  socket_open := false
  mutex_log_ready := false
  listeners := 0

/-- How a call ends: it returns, it terminates the process through
`exit(EXIT_FAILURE)` after the given diagnostic, or it reads an array whose
content the library left undefined. -/
inductive Outcome (α : Type) where
  | returned (a : α)
  | exited (diagnostic : String)
  | undefined
  deriving DecidableEq, Repr

/-! ## The control listener -/

/-- The result of one iteration of the loop of `ReceiveData`: the state
afterwards, the bytes written to standard output, and whether the iteration
slept. -/
structure Iteration where
  state : State
  out : List Char
  slept : Bool
  deriving DecidableEq, Repr

/-- The array `buffer` after `memset` and `recvfrom`: `recv` is the datagram
delivered (`none` when `recvfrom` fails, as it does when nothing is queued on
the non-blocking socket), cut to `SIZE_BUF` bytes. -/
def recvBuffer (recv : Option (List Char)) : List Char :=
  match recv with
  | none => List.replicate SIZE_BUF NUL
  | some data => data.take SIZE_BUF ++ List.replicate (SIZE_BUF - data.length) NUL

/-- The value `recvfrom` returns. -/
def recvLen (recv : Option (List Char)) : Int :=
  match recv with
  | none => -1
  | some data => ((min data.length SIZE_BUF : Nat) : Int)

/-- One iteration of the `while (is_running)` loop of `ReceiveData`.  `beyond`
is the memory that follows `buffer`: `sscanf` reads into it when a datagram
fills the array and leaves no terminator. -/
def ReceiveDataStep (s : State) (recv : Option (List Char)) (beyond : List Char) :
    Iteration :=
  let buffer := recvBuffer recv
  let msg_len := recvLen recv
  if msg_len > 0 then
    let r := sscanf (buffer ++ beyond) "Set Log Level=%d".toList
    if r.1 = 1 then
      let new_level := r.2.headD 0
      if new_level ≥ LOG_LEVEL.DEBUG.toInt ∧ new_level ≤ LOG_LEVEL.CRITICAL.toInt then
        { state := { s with log_level_current := new_level },
          out := "Log level updated to ".toList ++ itoa new_level ++ ['\n'],
          slept := false }
      else
        { state := s,
          out := "Received invalid log level. ".toList ++ itoa new_level ++ ['\n'],
          slept := false }
    else { state := s, out := [], slept := false }
  else { state := s, out := [], slept := true }

/-- The thread function `ReceiveData` run alone on a sequence of receive
results: the loop tests `is_running` before each iteration and returns when it
is false.  Gives the final state, the standard output, and the number of
iterations run; the list stands for the time the thread is observed. -/
def ReceiveData (s : State) : List (Option (List Char) × List Char) → State × List Char × Nat
  | [] => (s, [], 0)
  | (recv, beyond) :: rest =>
    if s.is_running then
      let it := ReceiveDataStep s recv beyond
      let r := ReceiveData it.state rest
      (r.1, it.out ++ r.2.1, r.2.2 + 1)
    else (s, [], 0)

/-! ## Session set-up and tear-down -/

/-- The results of the system calls `InitializeLog` makes, in order:
`socket`, `fcntl(F_GETFL)`, `fcntl(F_SETFL)`, `inet_pton`,
`pthread_mutex_init`, `pthread_create`. -/
structure InitEnv where
  socket_ret : Int
  getfl_ret : Int
  setfl_ret : Int
  inet_pton_ret : Int
  mutex_init_ret : Int
  pthread_create_ret : Int

/-- The function `InitializeLog`. -/
def InitializeLog (s : State) (env : InitEnv) : Outcome State :=
  let s1 := { s with fd_socket := env.socket_ret }
  if env.socket_ret < 0 then .exited "\nERROR: socket creation failed\n"
  else if env.getfl_ret < 0 then .exited "\nERROR: socket flag non blocking issue\n"
  else if env.setfl_ret < 0 then .exited "\nERROR: setting socket non blocking"
  else if env.inet_pton_ret ≤ 0 then .exited "inet_pton failed...\n"
  else if env.mutex_init_ret ≠ 0 then .exited "\nERROR: mutex init has failed\n"
  else if env.pthread_create_ret ≠ 0 then
    .exited "\nError: failed to create the receive thread\n"
  else
    .returned { s1 with socket_open := true, mutex_log_ready := true,
                        listeners := s1.listeners + 1 }

/-- The function `SetLogLevel`. -/
def SetLogLevel (s : State) (level : LOG_LEVEL) : State :=
  { s with log_level_current := level.toInt }

/-- The function `ExitLog`, run without interference.  `recv_thread.join()` is
called only when `recv_thread` is joinable; it waits for the thread that
`recv_thread` owns and leaves `recv_thread` not joinable. -/
def ExitLog (s : State) : State :=
  let s1 := { s with is_running := false }
  let s2 := if s1.recv_thread_joinable then { s1 with recv_thread_joinable := false } else s1
  let s3 := { s2 with mutex_log_ready := false }
  { s3 with socket_open := false }

/-! ## The log emitter -/

/-- The function `Log`.  `now` is the broken-down local time that
`localtime(&now)` returns and `send_ok` tells whether `sendto` succeeds.  A
returning call gives the state and the datagrams it sent. -/
def Log (s : State) (now : Tm) (send_ok : Bool) (level : LOG_LEVEL)
    (prog func : List Char) (line : Int) (message : List Char) :
    Outcome (State × List (List Char)) :=
  if level.toInt < s.log_level_current then .returned (s, [])
  else
    match strftime 30 "%Y-%m-%d %H:%M:%S".toList now with
    | none => .undefined
    | some dt =>
      let r := snprintf SIZE_BUF "%s %s %s: %s: %d %s\n".toList
        [Arg.str dt, Arg.str (level_str.getD level.toInt.toNat []), Arg.str prog,
         Arg.str func, Arg.int line, Arg.str message]
      let buffer_local := r.1
      if send_ok then .returned (s, [buffer_local.take (strlen buffer_local)])
      else .exited "Error sending stuff to the server...\n"

/-! ## `ExitLog` interleaved with the listener thread -/

/-- The statements of `ExitLog`, as program points of the calling thread. -/
inductive ExitPc where
  | setFlag
  | join
  | destroy
  | close
  | done
  deriving DecidableEq, Repr

/-- The program points of the thread `thread_receive` running `ReceiveData`:
about to test `is_running`, inside the loop body, or returned. -/
inductive ListenerPc where
  | test
  | body
  | returned
  deriving DecidableEq, Repr

/-- The two threads and the state they share.  `late` counts the loop bodies the
listener ran while `mutex_log` was destroyed or the socket was closed. -/
structure Sys where
  g : State
  exitPc : ExitPc
  listener : ListenerPc
  late : Nat
  deriving DecidableEq, Repr

/-- One statement of `ExitLog`.  `recv_thread.join()` is reached only when
`recv_thread` is joinable; it waits for the thread `recv_thread` owns, which is
never the thread that `pthread_create` stored in `thread_receive`. -/
def ExitLogTick (y : Sys) : Sys :=
  match y.exitPc with
  | .setFlag => { y with g := { y.g with is_running := false }, exitPc := .join }
  | .join =>
    if y.g.recv_thread_joinable then
      { y with g := { y.g with recv_thread_joinable := false }, exitPc := .destroy }
    else { y with exitPc := .destroy }
  | .destroy => { y with g := { y.g with mutex_log_ready := false }, exitPc := .close }
  | .close => { y with g := { y.g with socket_open := false }, exitPc := .done }
  | .done => y

/-- One move of the listener thread: the loop test, or one loop body on the
given receive result. -/
def ListenerTick (y : Sys) (recv : Option (List Char)) (beyond : List Char) : Sys :=
  match y.listener with
  | .test =>
    if y.g.is_running then { y with listener := .body } else { y with listener := .returned }
  | .body =>
    { y with
      g := (ReceiveDataStep y.g recv beyond).state,
      listener := .test,
      late := if y.g.mutex_log_ready ∧ y.g.socket_open then y.late else y.late + 1 }
  | .returned => y

/-- A scheduling choice: the thread in `ExitLog` moves, or the listener moves. -/
inductive Tick where
  | main
  | recv (data : Option (List Char)) (beyond : List Char)

/-- The system after a schedule. -/
def run (y : Sys) : List Tick → Sys
  | [] => y
  | Tick.main :: rest => run (ExitLogTick y) rest
  | Tick.recv data beyond :: rest => run (ListenerTick y data beyond) rest

/-- System calls that all succeed, with descriptor 3 for the socket. -/
def okEnv : InitEnv where
  socket_ret := 3
  getfl_ret := 2
  setfl_ret := 0
  inet_pton_ret := 1
  mutex_init_ret := 0
  pthread_create_ret := 0

/-- The state a first successful `InitializeLog` leaves. -/
def State.started : State :=
  { State.initial with fd_socket := 3, socket_open := true, mutex_log_ready := true,
                       listeners := 1 }

/-! ## Reference definitions from the specification -/

/-- The level names of the specification. -/
def specLevelName : LOG_LEVEL → List Char
  | .DEBUG => "DEBUG".toList
  | .WARNING => "WARNING".toList
  | .ERROR => "ERROR".toList
  | .CRITICAL => "CRITICAL".toList

/-- A two-digit field. -/
def specTwoDigits (n : Nat) : List Char :=
  [digitChar (n / 10), digitChar (n % 10)]

/-- The timestamp `YYYY-MM-DD HH:MM:SS` of a broken-down time. -/
def specTimestamp (t : Tm) : List Char :=
  let y := (t.tm_year + 1900).toNat
  [digitChar (y / 1000), digitChar (y / 100 % 10), digitChar (y / 10 % 10), digitChar (y % 10)]
    ++ ['-'] ++ specTwoDigits (t.tm_mon + 1) ++ ['-'] ++ specTwoDigits t.tm_mday
    ++ [' '] ++ specTwoDigits t.tm_hour ++ [':'] ++ specTwoDigits t.tm_min
    ++ [':'] ++ specTwoDigits t.tm_sec

/-- The record `<timestamp> <LEVELNAME> <prog>: <func>: <line> <message>\n`. -/
def specRecord (t : Tm) (level : LOG_LEVEL) (prog func : List Char) (line : Int)
    (message : List Char) : List Char :=
  specTimestamp t ++ [' '] ++ specLevelName level ++ [' '] ++ prog ++ [':', ' '] ++ func
    ++ [':', ' '] ++ itoa line ++ [' '] ++ message ++ ['\n']

/-- A broken-down time as `localtime` returns it, in a year of four digits. -/
def Tm.calendar (t : Tm) : Prop :=
  t.tm_sec ≤ 60 ∧ t.tm_min ≤ 59 ∧ t.tm_hour ≤ 23 ∧ 1 ≤ t.tm_mday ∧ t.tm_mday ≤ 31 ∧
    t.tm_mon ≤ 11 ∧ 1000 ≤ t.tm_year + 1900 ∧ t.tm_year + 1900 ≤ 9999

instance (t : Tm) : Decidable t.calendar := by
  unfold Tm.calendar; infer_instance

/-- The threshold holds the value of one of the four enumerators. -/
def State.valid (s : State) : Prop :=
  ∃ level : LOG_LEVEL, s.log_level_current = level.toInt

/-- The text of a control command, as `sscanf` accepts it: `Set`, `Log` and
`Level=` separated by any white space, then white space, an optional sign and
at least one digit, then anything. -/
def CommandShaped (text : List Char) : Prop :=
  ∃ w1 w2 w3 sign ds rest : List Char,
    text = "Set".toList ++ w1 ++ "Log".toList ++ w2 ++ "Level=".toList ++ w3 ++ sign ++ ds ++ rest ∧
    (∀ c ∈ w1, isspace c = true) ∧ (∀ c ∈ w2, isspace c = true) ∧ (∀ c ∈ w3, isspace c = true) ∧
    (sign = [] ∨ sign = ['-'] ∨ sign = ['+']) ∧ ds ≠ [] ∧ (∀ c ∈ ds, isdigit c = true)

/-- The states the program can be in: the initial state and what the entry
points and the listener make of a state already reached. -/
inductive Reachable : State → Prop where
  | initial : Reachable State.initial
  | initializeLog (s s' : State) (env : InitEnv) :
      Reachable s → InitializeLog s env = Outcome.returned s' → Reachable s'
  | setLogLevel (s : State) (level : LOG_LEVEL) : Reachable s → Reachable (SetLogLevel s level)
  | log (s s' : State) (now : Tm) (send_ok : Bool) (level : LOG_LEVEL) (prog func : List Char)
      (line : Int) (message : List Char) (sent : List (List Char)) :
      Reachable s → Log s now send_ok level prog func line message = Outcome.returned (s', sent) →
      Reachable s'
  | receiveData (s : State) (recv : Option (List Char)) (beyond : List Char) :
      Reachable s → Reachable (ReceiveDataStep s recv beyond).state
  | exitLog (s : State) : Reachable s → Reachable (ExitLog s)

/-! ## Decimal rendering -/

theorem digitChar_toNat (d : Nat) (h : d < 10) : (digitChar d).toNat = 48 + d := by
  interval_cases d <;> decide

theorem digitChar_isdigit (d : Nat) (h : d < 10) : isdigit (digitChar d) = true := by
  interval_cases d <;> decide

theorem isdigit_not_NUL (c : Char) (h : isdigit c = true) : c ≠ NUL := by
  intro hc
  subst hc
  revert h
  decide

theorem isdigit_not_isspace (c : Char) (h : isdigit c = true) : isspace c = false := by
  cases hs : isspace c
  · rfl
  · exfalso
    simp only [isspace, Bool.or_eq_true, decide_eq_true_eq] at hs
    rcases hs with ((((hs | hs) | hs) | hs) | hs) | hs <;> subst hs <;> revert h <;> decide

theorem isdigit_not_sign (c : Char) (h : isdigit c = true) : c ≠ '-' ∧ c ≠ '+' := by
  constructor <;> intro hc <;> subst hc <;> revert h <;> decide

theorem utoaAux_fuel (f1 : Nat) : ∀ (f2 n : Nat) (acc : List Char), n < f1 → n < f2 →
    utoaAux f1 n acc = utoaAux f2 n acc := by
  induction f1 with
  | zero => intro f2 n acc h; omega
  | succ f1 ih =>
    intro f2 n acc h1 h2
    cases f2 with
    | zero => omega
    | succ f2 =>
      simp only [utoaAux]
      split
      · rfl
      · exact ih f2 (n / 10) _ (by omega) (by omega)

theorem utoaAux_eq (n : Nat) (acc : List Char) :
    utoaAux (n + 1) n acc =
      if n < 10 then digitChar n :: acc
      else utoaAux (n / 10 + 1) (n / 10) (digitChar (n % 10) :: acc) := by
  simp only [utoaAux]
  split
  · rfl
  · exact utoaAux_fuel n (n / 10 + 1) (n / 10) _ (by omega) (by omega)

theorem utoaAux_acc (n : Nat) : ∀ acc : List Char,
    utoaAux (n + 1) n acc = utoa n ++ acc := by
  induction n using Nat.strong_induction_on with
  | _ n ih =>
    intro acc
    unfold utoa
    rw [utoaAux_eq n acc, utoaAux_eq n []]
    split
    · rfl
    · rw [ih (n / 10) (by omega), ih (n / 10) (by omega) [digitChar (n % 10)]]
      simp [utoa]

theorem utoa_small (n : Nat) (h : n < 10) : utoa n = [digitChar n] := by
  unfold utoa
  rw [utoaAux_eq, if_pos h]

theorem utoa_step (n : Nat) (h : 10 ≤ n) : utoa n = utoa (n / 10) ++ [digitChar (n % 10)] := by
  unfold utoa
  rw [utoaAux_eq, if_neg (by omega), utoaAux_acc]
  rfl

theorem utoa_digits (n : Nat) : ∀ c ∈ utoa n, isdigit c = true := by
  induction n using Nat.strong_induction_on with
  | _ n ih =>
    by_cases h : n < 10
    · rw [utoa_small n h]
      intro c hc
      simp only [List.mem_singleton] at hc
      subst hc
      exact digitChar_isdigit n h
    · rw [utoa_step n (by omega)]
      intro c hc
      rcases List.mem_append.mp hc with hc | hc
      · exact ih (n / 10) (by omega) c hc
      · simp only [List.mem_singleton] at hc
        subst hc
        exact digitChar_isdigit (n % 10) (by omega)

theorem utoa_ne_nil (n : Nat) : utoa n ≠ [] := by
  by_cases h : n < 10
  · rw [utoa_small n h]; simp
  · rw [utoa_step n (by omega)]; simp

theorem digitsValue_append (ds : List Char) (c : Char) :
    digitsValue (ds ++ [c]) = 10 * digitsValue ds + (c.toNat - 48) := by
  simp [digitsValue, List.foldl_append]

theorem digitsValue_utoa (n : Nat) : digitsValue (utoa n) = n := by
  induction n using Nat.strong_induction_on with
  | _ n ih =>
    by_cases h : n < 10
    · rw [utoa_small n h]
      simp only [digitsValue, List.foldl_cons, List.foldl_nil, digitChar_toNat n h]
      omega
    · rw [utoa_step n (by omega), digitsValue_append, ih (n / 10) (by omega),
        digitChar_toNat (n % 10) (by omega)]
      omega

theorem utoa_length (k : Nat) : ∀ n : Nat, n < 10 ^ (k + 1) → (utoa n).length ≤ k + 1 := by
  induction k with
  | zero =>
    intro n h
    rw [utoa_small n (by simpa using h)]
    simp
  | succ k ih =>
    intro n h
    by_cases h10 : n < 10
    · rw [utoa_small n h10]; simp
    · rw [utoa_step n (by omega), List.length_append]
      have : n / 10 < 10 ^ (k + 1) := by
        rw [Nat.div_lt_iff_lt_mul (by norm_num)]
        calc n < 10 ^ (k + 1 + 1) := h
          _ = 10 ^ (k + 1) * 10 := by ring
      have := ih (n / 10) this
      simp
      omega

theorem utoa_two (n : Nat) (h1 : 10 ≤ n) (h2 : n < 100) : utoa n = specTwoDigits n := by
  rw [utoa_step n h1, utoa_small (n / 10) (by omega)]
  rfl

theorem pad2_eq (n : Nat) (h : n < 100) : pad2 n = specTwoDigits n := by
  unfold pad2
  split
  · rename_i h10
    rw [utoa_small n h10]
    simp [specTwoDigits, Nat.div_eq_of_lt h10, Nat.mod_eq_of_lt h10]
    rfl
  · exact utoa_two n (by omega) h

theorem utoa_four (n : Nat) (h1 : 1000 ≤ n) (h2 : n < 10000) :
    utoa n = [digitChar (n / 1000), digitChar (n / 100 % 10), digitChar (n / 10 % 10),
      digitChar (n % 10)] := by
  rw [utoa_step n (by omega), utoa_step (n / 10) (by omega), utoa_step (n / 10 / 10) (by omega),
    utoa_small (n / 10 / 10 / 10) (by omega)]
  have e1 : n / 10 / 10 / 10 = n / 1000 := by omega
  have e2 : n / 10 / 10 = n / 100 := by omega
  rw [e1, e2]
  rfl

theorem itoa_nonul (i : Int) : ∀ c ∈ itoa i, c ≠ NUL := by
  intro c hc
  unfold itoa at hc
  split at hc
  · rcases List.mem_cons.mp hc with hc | hc
    · subst hc; decide
    · exact isdigit_not_NUL c (utoa_digits _ c hc)
  · exact isdigit_not_NUL c (utoa_digits _ c hc)

theorem itoa_length (i : Int) (h1 : -(2 : Int) ^ 31 ≤ i) (h2 : i < (2 : Int) ^ 31) :
    (itoa i).length ≤ 11 := by
  have hb : i.natAbs < 10 ^ (9 + 1) := by omega
  have := utoa_length 9 i.natAbs hb
  unfold itoa
  split <;> simp <;> omega

/-! ## C strings -/

theorem cstr_nonul (mem : List Char) : ∀ c ∈ cstr mem, c ≠ NUL := by
  intro c hc
  have := List.mem_takeWhile_imp hc
  simpa using this

theorem cstr_append_NUL (t rest : List Char) : cstr (t ++ NUL :: rest) = cstr t := by
  induction t with
  | nil => simp [cstr, List.takeWhile]
  | cons a t ih =>
    unfold cstr at ih ⊢
    simp only [List.cons_append, List.takeWhile_cons]
    split
    · rw [ih]
    · rfl

theorem cstr_eq_self (t : List Char) (h : ∀ c ∈ t, c ≠ NUL) : cstr t = t := by
  unfold cstr
  rw [List.takeWhile_eq_self_iff]
  intro c hc
  simpa using h c hc

theorem cstr_recvBuffer (data beyond : List Char) (h : data.length < SIZE_BUF) :
    cstr (recvBuffer (some data) ++ beyond) = cstr data := by
  unfold recvBuffer
  simp only
  rw [List.take_of_length_le (by omega)]
  obtain ⟨k, hk⟩ : ∃ k, SIZE_BUF - data.length = k + 1 := ⟨SIZE_BUF - data.length - 1, by omega⟩
  rw [hk, List.replicate_succ, List.append_assoc, List.cons_append, cstr_append_NUL]

/-! ## `sscanf` on the command format -/

theorem sscanfAux_cons (c : Char) (fmt input : List Char) (got : List Int) :
    sscanfAux (c :: fmt) input got =
      if isspace c then sscanfAux fmt (input.dropWhile isspace) got
      else if c = '%' then
        match fmt with
        | [] => matchFailure got
        | k :: fmt' =>
          if k = 'd' then
            if input.dropWhile isspace = [] then inputFailure got
            else
              match scanInt (input.dropWhile isspace) with
              | none => matchFailure got
              | some (v, rest) => sscanfAux fmt' rest (got ++ [v])
          else matchFailure got
      else
        match input with
        | [] => inputFailure got
        | x :: rest => if x = c then sscanfAux fmt rest got else matchFailure got := by
  cases fmt <;> rfl

theorem formatText_cons (c : Char) (fmt : List Char) (args : List Arg) :
    formatText (c :: fmt) args =
    if c = '%' then
      match fmt with
      | [] => []
      | k :: fmt' =>
        if k = 's' then
          match args with
          | Arg.str s :: args' => cstr s ++ formatText fmt' args'
          | _ => []
        else if k = 'd' then
          match args with
          | Arg.int i :: args' => itoa i ++ formatText fmt' args'
          | _ => []
        else []
    else c :: formatText fmt args := by
  cases fmt <;> rfl

theorem strftimeText_cons (c : Char) (fmt : List Char) (t : Tm) :
    strftimeText (c :: fmt) t =
    if c = '%' then
      match fmt with
      | [] => []
      | k :: fmt' => strftimeConv k t ++ strftimeText fmt' t
    else c :: strftimeText fmt t := by
  cases fmt <;> rfl



theorem sscanfAux_lit (c : Char) (fmt rest : List Char) (got : List Int)
    (h1 : isspace c = false) (h2 : c ≠ '%') :
    sscanfAux (c :: fmt) (c :: rest) got = sscanfAux fmt rest got := by
  simp [sscanfAux_cons, h1, h2]

theorem sscanfAux_ws (c : Char) (fmt input : List Char) (got : List Int)
    (h1 : isspace c = true) :
    sscanfAux (c :: fmt) input got = sscanfAux fmt (input.dropWhile isspace) got := by
  simp [sscanfAux_cons, h1]

theorem sscanfAux_lit_inv (c : Char) (fmt input : List Char)
    (h1 : isspace c = false) (h2 : c ≠ '%') (h : (sscanfAux (c :: fmt) input []).1 = 1) :
    ∃ rest, input = c :: rest ∧ (sscanfAux fmt rest []).1 = 1 := by
  cases input with
  | nil => simp [sscanfAux_cons, h1, h2, inputFailure, EOF] at h
  | cons x rest =>
    by_cases hx : x = c
    · subst hx
      rw [sscanfAux_lit x fmt rest [] h1 h2] at h
      exact ⟨rest, rfl, h⟩
    · simp [sscanfAux_cons, h1, h2, hx, matchFailure] at h

theorem sscanfAux_ws_inv (c : Char) (fmt input : List Char)
    (h1 : isspace c = true) (h : (sscanfAux (c :: fmt) input []).1 = 1) :
    ∃ w rest, input = w ++ rest ∧ (∀ x ∈ w, isspace x = true) ∧
      (sscanfAux fmt rest []).1 = 1 := by
  rw [sscanfAux_ws c fmt input [] h1] at h
  refine ⟨input.takeWhile isspace, input.dropWhile isspace,
    (List.takeWhile_append_dropWhile isspace input).symm, ?_, h⟩
  intro x hx
  exact List.mem_takeWhile_imp hx

theorem scanInt_shape (input rest : List Char) (v : Int) (h : scanInt input = some (v, rest)) :
    ∃ sign ds, input = sign ++ ds ++ rest ∧ (sign = [] ∨ sign = ['-'] ∨ sign = ['+']) ∧
      ds ≠ [] ∧ (∀ c ∈ ds, isdigit c = true) := by
  cases input with
  | nil => simp [scanInt] at h
  | cons x tl =>
    by_cases hs : x = '-' ∨ x = '+'
    · have hb : scanInt (x :: tl) =
          if tl.takeWhile isdigit = [] then none
          else some (toInt32 (strtol (decide (x = '-')) (tl.takeWhile isdigit)),
            tl.dropWhile isdigit) := by
        simp [scanInt, hs]
      rw [hb] at h
      split at h
      · exact absurd h (by simp)
      · rename_i hds
        simp only [Option.some.injEq, Prod.mk.injEq] at h
        refine ⟨[x], tl.takeWhile isdigit, ?_, ?_, hds, ?_⟩
        · rw [← h.2]; simp [List.takeWhile_append_dropWhile]
        · rcases hs with hs | hs <;> simp [hs]
        · intro c hc; exact List.mem_takeWhile_imp hc
    · have hb : scanInt (x :: tl) =
          if (x :: tl).takeWhile isdigit = [] then none
          else some (toInt32 (strtol (decide (x = '-')) ((x :: tl).takeWhile isdigit)),
            (x :: tl).dropWhile isdigit) := by
        simp [scanInt, hs]
      rw [hb] at h
      split at h
      · exact absurd h (by simp)
      · rename_i hds
        simp only [Option.some.injEq, Prod.mk.injEq] at h
        refine ⟨[], (x :: tl).takeWhile isdigit, ?_, Or.inl rfl, hds, ?_⟩
        · rw [← h.2]; simp [List.takeWhile_append_dropWhile]
        · intro c hc; exact List.mem_takeWhile_imp hc

theorem sscanfAux_d_inv (input : List Char) (h : (sscanfAux ['%', 'd'] input []).1 = 1) :
    ∃ w sign ds rest, input = w ++ sign ++ ds ++ rest ∧ (∀ x ∈ w, isspace x = true) ∧
      (sign = [] ∨ sign = ['-'] ∨ sign = ['+']) ∧ ds ≠ [] ∧ (∀ c ∈ ds, isdigit c = true) := by
  have hp : isspace '%' = false := by decide
  simp only [sscanfAux_cons, hp, Bool.false_eq_true, if_false, if_true] at h
  split at h
  · simp [inputFailure, EOF] at h
  · split at h
    · simp [matchFailure] at h
    · rename_i v rest hscan
      obtain ⟨sign, ds, hin, hsign, hne, hds⟩ := scanInt_shape _ rest v hscan
      refine ⟨input.takeWhile isspace, sign, ds, rest, ?_, ?_, hsign, hne, hds⟩
      · rw [List.append_assoc, List.append_assoc, ← List.append_assoc sign, ← hin,
          List.takeWhile_append_dropWhile]
      · intro x hx; exact List.mem_takeWhile_imp hx

/-- The format of the control command, byte by byte. -/
theorem commandFormat_eq : "Set Log Level=%d".toList =
    ['S', 'e', 't', ' ', 'L', 'o', 'g', ' ', 'L', 'e', 'v', 'e', 'l', '=', '%', 'd'] := rfl

theorem sscanf_shaped (input : List Char)
    (h : (sscanfAux "Set Log Level=%d".toList input []).1 = 1) : CommandShaped input := by
  rw [commandFormat_eq] at h
  obtain ⟨r, e1, h⟩ := sscanfAux_lit_inv 'S' _ _ (by decide) (by decide) h
  obtain ⟨r, e2, h⟩ := sscanfAux_lit_inv 'e' _ _ (by decide) (by decide) h
  obtain ⟨r, e3, h⟩ := sscanfAux_lit_inv 't' _ _ (by decide) (by decide) h
  obtain ⟨w1, r, e4, hw1, h⟩ := sscanfAux_ws_inv ' ' _ _ (by decide) h
  obtain ⟨r, e5, h⟩ := sscanfAux_lit_inv 'L' _ _ (by decide) (by decide) h
  obtain ⟨r, e6, h⟩ := sscanfAux_lit_inv 'o' _ _ (by decide) (by decide) h
  obtain ⟨r, e7, h⟩ := sscanfAux_lit_inv 'g' _ _ (by decide) (by decide) h
  obtain ⟨w2, r, e8, hw2, h⟩ := sscanfAux_ws_inv ' ' _ _ (by decide) h
  obtain ⟨r, e9, h⟩ := sscanfAux_lit_inv 'L' _ _ (by decide) (by decide) h
  obtain ⟨r, e10, h⟩ := sscanfAux_lit_inv 'e' _ _ (by decide) (by decide) h
  obtain ⟨r, e11, h⟩ := sscanfAux_lit_inv 'v' _ _ (by decide) (by decide) h
  obtain ⟨r, e12, h⟩ := sscanfAux_lit_inv 'e' _ _ (by decide) (by decide) h
  obtain ⟨r, e13, h⟩ := sscanfAux_lit_inv 'l' _ _ (by decide) (by decide) h
  obtain ⟨r, e14, h⟩ := sscanfAux_lit_inv '=' _ _ (by decide) (by decide) h
  obtain ⟨w3, sign, ds, rest, e15, hw3, hsign, hne, hds⟩ := sscanfAux_d_inv _ h
  refine ⟨w1, w2, w3, sign, ds, rest, ?_, hw1, hw2, hw3, hsign, hne, hds⟩
  subst e15 e14 e13 e12 e11 e10 e9 e8 e7 e6 e5 e4 e3 e2 e1
  have e : "Set".toList = ['S', 'e', 't'] ∧ "Log".toList = ['L', 'o', 'g'] ∧
      "Level=".toList = ['L', 'e', 'v', 'e', 'l', '='] := ⟨rfl, rfl, rfl⟩
  rw [e.1, e.2.1, e.2.2]
  simp

theorem utoa_head (m : Nat) : ∃ d tl, utoa m = d :: tl ∧ isdigit d = true := by
  cases hu : utoa m with
  | nil => exact absurd hu (utoa_ne_nil m)
  | cons d tl =>
    refine ⟨d, tl, rfl, utoa_digits m d ?_⟩
    rw [hu]; exact List.mem_cons_self d tl

theorem takeWhile_isdigit_utoa (m : Nat) : (utoa m).takeWhile isdigit = utoa m := by
  rw [List.takeWhile_eq_self_iff]
  exact utoa_digits m

theorem dropWhile_isdigit_utoa (m : Nat) : (utoa m).dropWhile isdigit = [] := by
  rw [List.dropWhile_eq_nil_iff]
  exact utoa_digits m

theorem scanInt_itoa (n : Int) :
    scanInt (itoa n) = some (toInt32 (strtol (decide (n < 0)) (utoa n.natAbs)), []) := by
  unfold itoa
  by_cases hn : n < 0
  · simp [hn, scanInt, takeWhile_isdigit_utoa, dropWhile_isdigit_utoa, utoa_ne_nil]
  · obtain ⟨d, tl, hu, hd⟩ := utoa_head n.natAbs
    have hsign := isdigit_not_sign d hd
    have h1 : (utoa n.natAbs).head? = some d := by rw [hu]; rfl
    simp [hn, scanInt, h1, hsign.1, hsign.2, takeWhile_isdigit_utoa, dropWhile_isdigit_utoa,
      utoa_ne_nil]

theorem itoa_head_not_space (n : Int) : (itoa n).dropWhile isspace = itoa n := by
  unfold itoa
  split
  · rfl
  · obtain ⟨d, tl, hu, hd⟩ := utoa_head n.natAbs
    rw [hu, List.dropWhile_cons, isdigit_not_isspace d hd]
    simp

theorem itoa_ne_nil (n : Int) : itoa n ≠ [] := by
  unfold itoa
  split
  · simp
  · exact utoa_ne_nil _

theorem toInt32_strtol_itoa (n : Int) (h1 : -(2 : Int) ^ 31 ≤ n) (h2 : n < (2 : Int) ^ 31) :
    toInt32 (strtol (decide (n < 0)) (utoa n.natAbs)) = n := by
  unfold toInt32 strtol
  rw [digitsValue_utoa]
  by_cases hn : n < 0
  · have hm : ((n.natAbs : Nat) : Int) = -n := by omega
    simp only [hn, decide_True, if_true, hm]
    omega
  · have hm : ((n.natAbs : Nat) : Int) = n := by omega
    simp only [hn, decide_False, Bool.false_eq_true, if_false, hm]
    omega

theorem sscanfAux_command (n : Int) :
    sscanfAux "Set Log Level=%d".toList ("Set Log Level=".toList ++ itoa n) [] =
      (1, [toInt32 (strtol (decide (n < 0)) (utoa n.natAbs))]) := by
  have e : "Set Log Level=".toList =
      ['S', 'e', 't', ' ', 'L', 'o', 'g', ' ', 'L', 'e', 'v', 'e', 'l', '='] := rfl
  rw [commandFormat_eq, e]
  simp only [List.cons_append, List.nil_append]
  rw [sscanfAux_lit _ _ _ _ (by decide) (by decide), sscanfAux_lit _ _ _ _ (by decide) (by decide),
    sscanfAux_lit _ _ _ _ (by decide) (by decide), sscanfAux_ws _ _ _ _ (by decide)]
  have d1 : ∀ tl : List Char, (' ' :: 'L' :: tl).dropWhile isspace = 'L' :: tl := by
    intro tl
    have a : isspace ' ' = true := by decide
    have b : isspace 'L' = false := by decide
    simp [List.dropWhile_cons, a, b]
  rw [d1, sscanfAux_lit _ _ _ _ (by decide) (by decide),
    sscanfAux_lit _ _ _ _ (by decide) (by decide), sscanfAux_lit _ _ _ _ (by decide) (by decide),
    sscanfAux_ws _ _ _ _ (by decide), d1, sscanfAux_lit _ _ _ _ (by decide) (by decide),
    sscanfAux_lit _ _ _ _ (by decide) (by decide), sscanfAux_lit _ _ _ _ (by decide) (by decide),
    sscanfAux_lit _ _ _ _ (by decide) (by decide), sscanfAux_lit _ _ _ _ (by decide) (by decide),
    sscanfAux_lit _ _ _ _ (by decide) (by decide), sscanfAux_cons]
  have hp : isspace '%' = false := by decide
  simp only [hp, Bool.false_eq_true, if_false, if_true, itoa_head_not_space, itoa_ne_nil,
    scanInt_itoa]
  rfl

theorem command_nonul (n : Int) : ∀ c ∈ "Set Log Level=".toList ++ itoa n, c ≠ NUL := by
  intro c hc
  rcases List.mem_append.mp hc with hc | hc
  · have hlit : ∀ x ∈ "Set Log Level=".toList, x ≠ NUL := by decide
    exact hlit c hc
  · exact itoa_nonul n c hc

theorem command_length (n : Int) (h1 : -(2 : Int) ^ 31 ≤ n) (h2 : n < (2 : Int) ^ 31) :
    ("Set Log Level=".toList ++ itoa n).length ≤ 25 := by
  have := itoa_length n h1 h2
  have e : "Set Log Level=".toList.length = 14 := rfl
  rw [List.length_append, e]
  omega

theorem ReceiveDataStep_command (s : State) (n : Int) (beyond : List Char)
    (h1 : -(2 : Int) ^ 31 ≤ n) (h2 : n < (2 : Int) ^ 31) :
    ReceiveDataStep s (some ("Set Log Level=".toList ++ itoa n)) beyond =
      if 0 ≤ n ∧ n ≤ 3 then
        { state := { s with log_level_current := n },
          out := "Log level updated to ".toList ++ itoa n ++ ['\n'], slept := false }
      else
        { state := s, out := "Received invalid log level. ".toList ++ itoa n ++ ['\n'],
          slept := false } := by
  have hlen := command_length n h1 h2
  have hpos : recvLen (some ("Set Log Level=".toList ++ itoa n)) > 0 := by
    have e : "Set Log Level=".toList.length = 14 := rfl
    simp only [recvLen, List.length_append, e, SIZE_BUF]
    omega
  have hscan : sscanf (recvBuffer (some ("Set Log Level=".toList ++ itoa n)) ++ beyond)
      "Set Log Level=%d".toList = (1, [n]) := by
    unfold sscanf
    rw [cstr_recvBuffer _ _ (by simp only [SIZE_BUF]; omega), cstr_eq_self _ (command_nonul n),
      sscanfAux_command, toInt32_strtol_itoa n h1 h2]
  unfold ReceiveDataStep
  simp only [hpos, hscan, if_true, List.headD_cons, LOG_LEVEL.toInt, ge_iff_le]

/-! ## The timestamp and the record of `Log` -/

theorem strftimeText_timestamp (t : Tm) :
    strftimeText "%Y-%m-%d %H:%M:%S".toList t =
      itoa (t.tm_year + 1900) ++ ['-'] ++ pad2 (t.tm_mon + 1) ++ ['-'] ++ pad2 t.tm_mday ++ [' ']
        ++ pad2 t.tm_hour ++ [':'] ++ pad2 t.tm_min ++ [':'] ++ pad2 t.tm_sec := by
  have e : "%Y-%m-%d %H:%M:%S".toList =
      ['%', 'Y', '-', '%', 'm', '-', '%', 'd', ' ', '%', 'H', ':', '%', 'M', ':', '%', 'S'] := rfl
  rw [e]
  simp [strftimeText_cons, strftimeConv, strftimeText]

theorem timestamp_calendar (t : Tm) (h : t.calendar) :
    strftimeText "%Y-%m-%d %H:%M:%S".toList t = specTimestamp t := by
  obtain ⟨h1, h2, h3, h4, h5, h6, h7, h8⟩ := h
  rw [strftimeText_timestamp, pad2_eq _ (by omega), pad2_eq _ (by omega), pad2_eq _ (by omega),
    pad2_eq _ (by omega), pad2_eq _ (by omega)]
  have hy : itoa (t.tm_year + 1900) = utoa (t.tm_year + 1900).toNat := by
    unfold itoa
    rw [if_neg (by omega)]
    congr 1
    omega
  rw [hy, utoa_four _ (by omega) (by omega)]
  rfl

theorem specTimestamp_length (t : Tm) : (specTimestamp t).length = 19 := by
  simp [specTimestamp, specTwoDigits]

theorem strftime_calendar (t : Tm) (h : t.calendar) :
    strftime 30 "%Y-%m-%d %H:%M:%S".toList t = some (specTimestamp t) := by
  unfold strftime
  simp only [timestamp_calendar t h, specTimestamp_length]
  rfl

theorem digitChar_nonul (d : Nat) (h : d < 10) : digitChar d ≠ NUL :=
  isdigit_not_NUL _ (digitChar_isdigit d h)

theorem specTimestamp_nonul (t : Tm) (h : t.calendar) : ∀ c ∈ specTimestamp t, c ≠ NUL := by
  obtain ⟨h1, h2, h3, h4, h5, h6, h7, h8⟩ := h
  have hsep : '-' ≠ NUL ∧ ' ' ≠ NUL ∧ ':' ≠ NUL := by decide
  intro c hc
  simp only [specTimestamp, specTwoDigits, List.cons_append, List.nil_append, List.mem_cons,
    List.mem_singleton, List.not_mem_nil, or_false] at hc
  rcases hc with hc | hc | hc | hc | hc | hc | hc | hc | hc | hc | hc | hc | hc | hc | hc | hc |
    hc | hc | hc <;> subst hc <;>
    first
    | exact hsep.1
    | exact hsep.2.1
    | exact hsep.2.2
    | exact digitChar_nonul _ (by omega)

theorem specLevelName_nonul (level : LOG_LEVEL) : ∀ c ∈ specLevelName level, c ≠ NUL := by
  cases level <;> decide

theorem level_str_eq (level : LOG_LEVEL) :
    level_str.getD level.toInt.toNat [] = specLevelName level := by
  cases level <;> rfl

theorem formatText_record (dt lvl prog func message : List Char) (line : Int) :
    formatText "%s %s %s: %s: %d %s\n".toList
        [Arg.str dt, Arg.str lvl, Arg.str prog, Arg.str func, Arg.int line, Arg.str message] =
      cstr dt ++ [' '] ++ cstr lvl ++ [' '] ++ cstr prog ++ [':', ' '] ++ cstr func ++ [':', ' ']
        ++ itoa line ++ [' '] ++ cstr message ++ ['\n'] := by
  have e : "%s %s %s: %s: %d %s\n".toList =
      ['%', 's', ' ', '%', 's', ' ', '%', 's', ':', ' ', '%', 's', ':', ' ', '%', 'd', ' ',
        '%', 's', '\n'] := rfl
  rw [e]
  simp [formatText_cons, formatText]

theorem specRecord_nonul (t : Tm) (h : t.calendar) (level : LOG_LEVEL) (prog func : List Char)
    (line : Int) (message : List Char) :
    ∀ c ∈ specRecord t level (cstr prog) (cstr func) line (cstr message), c ≠ NUL := by
  have hsep : ' ' ≠ NUL ∧ ':' ≠ NUL ∧ '\n' ≠ NUL := by decide
  intro c hc
  simp only [specRecord, List.mem_append, List.mem_cons, List.mem_singleton, List.not_mem_nil,
    or_false] at hc
  rcases hc with ((((((((((hc | hc) | hc) | hc) | hc) | hc) | hc) | hc) | hc) | hc) | hc) | hc
  · exact specTimestamp_nonul t h c hc
  · subst hc; exact hsep.1
  · exact specLevelName_nonul level c hc
  · subst hc; exact hsep.1
  · exact cstr_nonul prog c hc
  · rcases hc with hc | hc <;> subst hc
    · exact hsep.2.1
    · exact hsep.1
  · exact cstr_nonul func c hc
  · rcases hc with hc | hc <;> subst hc
    · exact hsep.2.1
    · exact hsep.1
  · exact itoa_nonul line c hc
  · subst hc; exact hsep.1
  · exact cstr_nonul message c hc
  · subst hc; exact hsep.2.2

theorem stored_payload (text : List Char) (h : ∀ c ∈ text, c ≠ NUL) :
    let buf := text.take (SIZE_BUF - 1) ++
      List.replicate (SIZE_BUF - (text.take (SIZE_BUF - 1)).length) NUL
    buf.take (strlen buf) = text.take (SIZE_BUF - 1) := by
  intro buf
  have hlen : (text.take (SIZE_BUF - 1)).length ≤ SIZE_BUF - 1 := by
    rw [List.length_take]; exact Nat.min_le_left _ _
  obtain ⟨k, hk⟩ : ∃ k, SIZE_BUF - (text.take (SIZE_BUF - 1)).length = k + 1 :=
    ⟨SIZE_BUF - (text.take (SIZE_BUF - 1)).length - 1, by simp only [SIZE_BUF] at hlen ⊢; omega⟩
  have hs : strlen buf = (text.take (SIZE_BUF - 1)).length := by
    show (cstr (text.take (SIZE_BUF - 1) ++ List.replicate
      (SIZE_BUF - (text.take (SIZE_BUF - 1)).length) NUL)).length = _
    rw [hk, List.replicate_succ, cstr_append_NUL,
      cstr_eq_self _ (fun c hc => h c (List.mem_of_mem_take hc))]
  rw [hs]
  exact List.take_left' rfl

theorem Log_passing (s : State) (now : Tm) (send_ok : Bool) (level : LOG_LEVEL)
    (prog func : List Char) (line : Int) (message : List Char)
    (hT : s.log_level_current ≤ level.toInt) (hnow : now.calendar) :
    Log s now send_ok level prog func line message =
      if send_ok then
        Outcome.returned (s, [(specRecord now level (cstr prog) (cstr func) line
          (cstr message)).take (SIZE_BUF - 1)])
      else Outcome.exited "Error sending stuff to the server...\n" := by
  unfold Log
  rw [if_neg (by omega), strftime_calendar now hnow]
  simp only [snprintf, level_str_eq, formatText_record]
  rw [cstr_eq_self _ (specTimestamp_nonul now hnow), cstr_eq_self _ (specLevelName_nonul level)]
  have hp := stored_payload (specRecord now level (cstr prog) (cstr func) line (cstr message))
    (specRecord_nonul now hnow level prog func line message)
  simp only [specRecord] at hp ⊢
  rw [hp]

/-! ## Shared facts about the operations -/

theorem Log_state (s s' : State) (now : Tm) (send_ok : Bool) (level : LOG_LEVEL)
    (prog func : List Char) (line : Int) (message : List Char) (sent : List (List Char))
    (h : Log s now send_ok level prog func line message = Outcome.returned (s', sent)) :
    s' = s := by
  unfold Log at h
  split at h
  · simp only [Outcome.returned.injEq, Prod.mk.injEq] at h
    exact h.1.symm
  · split at h
    · exact absurd h (by simp)
    · simp only at h
      split at h
      · simp only [Outcome.returned.injEq, Prod.mk.injEq] at h
        exact h.1.symm
      · exact absurd h (by simp)

theorem InitializeLog_fields (s s' : State) (env : InitEnv)
    (h : InitializeLog s env = Outcome.returned s') :
    s'.is_running = s.is_running ∧ s'.log_level_current = s.log_level_current ∧
      s'.recv_thread_joinable = s.recv_thread_joinable := by
  unfold InitializeLog at h
  simp only at h
  repeat' split at h
  all_goals first
    | (simp only [Outcome.returned.injEq] at h; subst h; exact ⟨rfl, rfl, rfl⟩)
    | simp at h

theorem valid_of_range (s : State) (h0 : 0 ≤ s.log_level_current)
    (h3 : s.log_level_current ≤ 3) : s.valid := by
  have : s.log_level_current = 0 ∨ s.log_level_current = 1 ∨ s.log_level_current = 2 ∨
      s.log_level_current = 3 := by omega
  rcases this with h | h | h | h
  · exact ⟨.DEBUG, h⟩
  · exact ⟨.WARNING, h⟩
  · exact ⟨.ERROR, h⟩
  · exact ⟨.CRITICAL, h⟩

theorem ReceiveDataStep_valid (s : State) (recv : Option (List Char)) (beyond : List Char)
    (h : s.valid) : (ReceiveDataStep s recv beyond).state.valid := by
  unfold ReceiveDataStep
  simp only
  split
  · split
    · split
      · rename_i hr
        simp only [LOG_LEVEL.toInt, ge_iff_le] at hr
        exact valid_of_range _ hr.1 hr.2
      · exact h
    · exact h
  · exact h

theorem SetLogLevel_valid (s : State) (level : LOG_LEVEL) : (SetLogLevel s level).valid :=
  ⟨level, rfl⟩

theorem reachable_valid (s : State) (h : Reachable s) : s.valid := by
  induction h with
  | initial => exact ⟨.DEBUG, rfl⟩
  | initializeLog s s' env _ hr ih =>
    obtain ⟨level, hl⟩ := ih
    exact ⟨level, by rw [(InitializeLog_fields s s' env hr).2.1, hl]⟩
  | setLogLevel s level _ _ => exact SetLogLevel_valid s level
  | log s s' now send_ok level prog func line message sent _ hr ih =>
    rw [Log_state s s' now send_ok level prog func line message sent hr]
    exact ih
  | receiveData s recv beyond _ ih => exact ReceiveDataStep_valid s recv beyond ih
  | exitLog s _ ih =>
    obtain ⟨level, hl⟩ := ih
    refine ⟨level, ?_⟩
    rw [← hl]
    unfold ExitLog
    simp only
    split <;> rfl

theorem itoa_chars (n : Int) : ∀ c ∈ itoa n, c = '-' ∨ isdigit c = true := by
  intro c hc
  unfold itoa at hc
  split at hc
  · rcases List.mem_cons.mp hc with hc | hc
    · exact Or.inl hc
    · exact Or.inr (utoa_digits _ c hc)
  · exact Or.inr (utoa_digits _ c hc)

theorem ReceiveDataStep_unshaped (s : State) (data beyond : List Char)
    (hlen : data.length < SIZE_BUF) (h : ¬ CommandShaped (cstr data)) :
    (ReceiveDataStep s (some data) beyond).state = s ∧
      (ReceiveDataStep s (some data) beyond).out = [] := by
  have hscan : ¬ (sscanf (recvBuffer (some data) ++ beyond) "Set Log Level=%d".toList).1 = 1 := by
    intro h1
    unfold sscanf at h1
    rw [cstr_recvBuffer data beyond hlen] at h1
    exact h (sscanf_shaped _ h1)
  unfold ReceiveDataStep
  simp only [hscan, if_false]
  split <;> exact ⟨rfl, rfl⟩

theorem Log_below_threshold_discards_aux (s : State) (now : Tm) (send_ok : Bool)
    (prog func : List Char) (line : Int) (message : List Char) :
    Log (SetLogLevel s .ERROR) now send_ok .WARNING prog func line message =
      Outcome.returned (SetLogLevel s .ERROR, []) := by
  unfold Log
  rw [if_pos (by show (1 : Int) < 2; omega)]

/-! ## The claims -/

/-- C1: for every threshold and every level below it, `Log` sends no datagram
and returns with the state unchanged, whatever the time, the outcome a send
would have had, and the program name, function name, line and message. -/
theorem Log_below_threshold_discards (s : State) (now : Tm) (send_ok : Bool) (level : LOG_LEVEL)
    (prog func : List Char) (line : Int) (message : List Char)
    (h : level.toInt < s.log_level_current) :
    Log s now send_ok level prog func line message = Outcome.returned (s, []) := by
  unfold Log
  rw [if_pos h]

/-- C1 witness: threshold ERROR, level WARNING. -/
theorem Log_below_threshold_discards_witness :
    LOG_LEVEL.WARNING.toInt < (SetLogLevel State.started .ERROR).log_level_current ∧
    Log (SetLogLevel State.started .ERROR) ⟨5, 4, 3, 2, 0, 125⟩ true .WARNING "app".toList
      "main".toList 42 "disk full".toList =
      Outcome.returned (SetLogLevel State.started .ERROR, []) :=
  ⟨by decide, Log_below_threshold_discards _ _ _ _ _ _ _ _ (by decide)⟩

/-- C2: for every threshold and every level at or above it, when the send
succeeds and the record is at most 1023 bytes long, `Log` sends exactly one
datagram, whose payload is `<timestamp> <LEVELNAME> <prog>: <func>: <line>
<message>` and a newline, with the timestamp `YYYY-MM-DD HH:MM:SS` of the local
time, the line in decimal and the level name of the level; the state is
unchanged.  The strings are the C strings at `prog`, `func` and `message`. -/
theorem Log_sends_record (s : State) (now : Tm) (level : LOG_LEVEL) (prog func : List Char)
    (line : Int) (message : List Char) (hT : s.log_level_current ≤ level.toInt)
    (hnow : now.calendar)
    (hlen : (specRecord now level (cstr prog) (cstr func) line (cstr message)).length ≤ 1023) :
    Log s now true level prog func line message =
      Outcome.returned (s, [specRecord now level (cstr prog) (cstr func) line (cstr message)]) := by
  rw [Log_passing s now true level prog func line message hT hnow, if_pos rfl,
    List.take_of_length_le (by simp only [SIZE_BUF]; omega)]

/-- C2 witness: threshold WARNING, `Log(ERROR, "app", "main", 42, "disk full")`
at 2025-01-02 03:04:05. -/
theorem Log_sends_record_witness :
    (SetLogLevel State.started .WARNING).log_level_current ≤ LOG_LEVEL.ERROR.toInt ∧
    Log (SetLogLevel State.started .WARNING) ⟨5, 4, 3, 2, 0, 125⟩ true .ERROR "app".toList
      "main".toList 42 "disk full".toList =
      Outcome.returned (SetLogLevel State.started .WARNING,
        ["2025-01-02 03:04:05 ERROR app: main: 42 disk full\n".toList]) :=
  ⟨by decide,
    Log_sends_record (SetLogLevel State.started .WARNING) ⟨5, 4, 3, 2, 0, 125⟩ .ERROR "app".toList
      "main".toList 42 "disk full".toList (by decide) (by decide) (by decide)⟩

/-- C3: for every previous state and every integer n in [0,3], a listener
iteration that receives `Set Log Level=<n>` sets the threshold to n, which is
the value of one of the four levels, changes nothing else, and writes
`Log level updated to <n>`; after `Set Log Level=2` the threshold is ERROR, a
following `Log(WARNING, ...)` sends nothing and a following `Log(ERROR, ...)`
sends its record. -/
theorem ReceiveData_sets_level (s : State) (n : Int) (beyond : List Char) (now : Tm)
    (prog func : List Char) (line : Int) (message : List Char)
    (h0 : 0 ≤ n) (h3 : n ≤ 3) (hnow : now.calendar) :
    ReceiveDataStep s (some ("Set Log Level=".toList ++ itoa n)) beyond =
        { state := { s with log_level_current := n },
          out := "Log level updated to ".toList ++ itoa n ++ ['\n'], slept := false } ∧
      (∃ level : LOG_LEVEL, level.toInt = n ∧
        (ReceiveDataStep s (some ("Set Log Level=".toList ++ itoa n)) beyond).state =
          SetLogLevel s level) ∧
      (ReceiveDataStep s (some "Set Log Level=2".toList) beyond).state =
        SetLogLevel s .ERROR ∧
      Log (ReceiveDataStep s (some "Set Log Level=2".toList) beyond).state now true .WARNING
          prog func line message =
        Outcome.returned ((ReceiveDataStep s (some "Set Log Level=2".toList) beyond).state, []) ∧
      Log (ReceiveDataStep s (some "Set Log Level=2".toList) beyond).state now true .ERROR
          prog func line message =
        Outcome.returned ((ReceiveDataStep s (some "Set Log Level=2".toList) beyond).state,
          [(specRecord now .ERROR (cstr prog) (cstr func) line (cstr message)).take 1023]) := by
  have hstep := ReceiveDataStep_command s n beyond (by omega) (by omega)
  rw [if_pos ⟨h0, h3⟩] at hstep
  have h2 : ReceiveDataStep s (some "Set Log Level=2".toList) beyond =
      { state := SetLogLevel s .ERROR,
        out := "Log level updated to ".toList ++ itoa 2 ++ ['\n'], slept := false } := by
    have := ReceiveDataStep_command s 2 beyond (by omega) (by omega)
    rw [if_pos ⟨by omega, by omega⟩] at this
    exact this
  refine ⟨hstep, ?_, ?_, ?_, ?_⟩
  · rw [hstep]
    have : n = 0 ∨ n = 1 ∨ n = 2 ∨ n = 3 := by omega
    rcases this with h | h | h | h <;> subst h
    · exact ⟨.DEBUG, rfl, rfl⟩
    · exact ⟨.WARNING, rfl, rfl⟩
    · exact ⟨.ERROR, rfl, rfl⟩
    · exact ⟨.CRITICAL, rfl, rfl⟩
  · rw [h2]
  · rw [h2]
    exact Log_below_threshold_discards_aux _ now true prog func line message
  · rw [h2, Log_passing _ now true .ERROR prog func line message (by show (2 : Int) ≤ 2; omega)
      hnow, if_pos rfl]
    rfl

/-- C3 witness: `Set Log Level=2` received in the state a first
`InitializeLog` leaves. -/
theorem ReceiveData_sets_level_witness :
    (ReceiveDataStep State.started (some "Set Log Level=2".toList) []).state.log_level_current =
        LOG_LEVEL.ERROR.toInt ∧
      (ReceiveDataStep State.started (some "Set Log Level=2".toList) []).out =
        "Log level updated to 2\n".toList := by
  have h := ReceiveData_sets_level State.started 2 [] ⟨5, 4, 3, 2, 0, 125⟩ "app".toList
    "main".toList 42 "disk full".toList (by decide) (by decide) (by decide)
  exact ⟨congrArg (fun r => r.state.log_level_current) h.1, congrArg (fun r => r.out) h.1⟩

/-- C4, the code at the failing input: the integer 4294967298 is outside
[0,3], yet on `Set Log Level=4294967298` the listener stores ERROR, because the
range guard tests the value narrowed to an `int`, which is 2; it writes the
confirmation, not a rejection naming the integer, and the state changes. -/
theorem ReceiveData_accepts_wrapped_integer :
    (3 : Int) < 4294967298 ∧
      State.started.log_level_current = 0 ∧
      ReceiveDataStep State.started (some ("Set Log Level=".toList ++ itoa 4294967298)) [] =
        { state := { State.started with log_level_current := 2 },
          out := "Log level updated to 2\n".toList, slept := false } ∧
      (ReceiveDataStep State.started (some ("Set Log Level=".toList ++ itoa 4294967298)) []).state
        ≠ State.started ∧
      (ReceiveDataStep State.started (some ("Set Log Level=".toList ++ itoa 4294967298)) []).out
        ≠ "Received invalid log level. ".toList ++ itoa 4294967298 ++ ['\n'] := by
  decide

/-- The range guard of the listener on integers an `int` can hold: for every
state and every such n outside [0,3], an iteration that receives
`Set Log Level=<n>` leaves the whole state as it was and writes
`Received invalid log level. <n>`; the loop then goes on with the next receive
result. -/
theorem ReceiveData_rejects_out_of_range (s : State) (n : Int) (beyond : List Char)
    (later : List (Option (List Char) × List Char))
    (hout : n < 0 ∨ 3 < n) (hmin : -(2 : Int) ^ 31 ≤ n) (hmax : n < (2 : Int) ^ 31) :
    ReceiveDataStep s (some ("Set Log Level=".toList ++ itoa n)) beyond =
        { state := s, out := "Received invalid log level. ".toList ++ itoa n ++ ['\n'],
          slept := false } ∧
      (s.is_running = true →
        ReceiveData s ((some ("Set Log Level=".toList ++ itoa n), beyond) :: later) =
          ((ReceiveData s later).1,
            "Received invalid log level. ".toList ++ itoa n ++ ['\n'] ++ (ReceiveData s later).2.1,
            (ReceiveData s later).2.2 + 1)) := by
  have hstep := ReceiveDataStep_command s n beyond hmin hmax
  rw [if_neg (by omega)] at hstep
  refine ⟨hstep, ?_⟩
  intro hrun
  simp only [ReceiveData, hrun, if_true, hstep]

/-- The range guard at `Set Log Level=9` and `Set Log Level=-1`. -/
theorem ReceiveData_rejects_out_of_range_witness :
    ("Set Log Level=".toList ++ itoa 9 = "Set Log Level=9".toList ∧
      "Set Log Level=".toList ++ itoa (-1) = "Set Log Level=-1".toList) ∧
      ReceiveDataStep State.started (some ("Set Log Level=".toList ++ itoa 9)) [] =
        { state := State.started,
          out := "Received invalid log level. ".toList ++ itoa 9 ++ ['\n'], slept := false } ∧
      ReceiveDataStep State.started (some ("Set Log Level=".toList ++ itoa (-1))) [] =
        { state := State.started,
          out := "Received invalid log level. ".toList ++ itoa (-1) ++ ['\n'], slept := false } :=
  ⟨by decide,
    (ReceiveData_rejects_out_of_range State.started 9 [] [] (by decide) (by decide)
      (by decide)).1,
    (ReceiveData_rejects_out_of_range State.started (-1) [] [] (by decide) (by decide)
      (by decide)).1⟩

/-- C5 counterexample: `Set Log Level=2 please` has extra characters after the
integer and `SetLogLevel=3` has no spaces, so neither is `Set Log Level=`
followed by a decimal integer; the listener obeys both and writes a
confirmation. -/
theorem ReceiveData_obeys_inexact_commands :
    (∀ n : Int, "Set Log Level=2 please".toList ≠ "Set Log Level=".toList ++ itoa n) ∧
      (∀ n : Int, "SetLogLevel=3".toList ≠ "Set Log Level=".toList ++ itoa n) ∧
      ReceiveDataStep State.started (some "Set Log Level=2 please".toList) [] =
        { state := { State.started with log_level_current := 2 },
          out := "Log level updated to 2\n".toList, slept := false } ∧
      ReceiveDataStep State.started (some "SetLogLevel=3".toList) [] =
        { state := { State.started with log_level_current := 3 },
          out := "Log level updated to 3\n".toList, slept := false } := by
  refine ⟨?_, ?_, by decide, by decide⟩
  · intro n h
    have e1 : "Set Log Level=2 please".toList = "Set Log Level=".toList ++ "2 please".toList := rfl
    rw [e1] at h
    have h' := List.append_cancel_left h
    have hp : 'p' ∈ itoa n := by rw [← h']; decide
    rcases itoa_chars n 'p' hp with hc | hc
    · exact absurd hc (by decide)
    · exact absurd hc (by decide)
  · intro n h
    have e1 : "SetLogLevel=3".toList = "Set".toList ++ "LogLevel=3".toList := rfl
    have e2 : "Set Log Level=".toList ++ itoa n =
        "Set".toList ++ (' ' :: ("Log Level=".toList ++ itoa n)) := rfl
    rw [e1, e2] at h
    have h' := List.append_cancel_left h
    have e3 : "LogLevel=3".toList = 'L' :: "ogLevel=3".toList := rfl
    rw [e3] at h'
    exact absurd (List.cons.inj h').1 (by decide)

/-- C5, amended: for every state and every received datagram shorter than the
buffer whose text, up to its first NUL, does not begin with `Set`, `Log` and
`Level=` separated by any white space at all and followed, after optional white
space, by an optional sign and at least one digit, the listener iteration
leaves the state as it was and writes nothing. -/
theorem ReceiveData_ignores_other_text (s : State) (data beyond : List Char)
    (hlen : data.length < SIZE_BUF) (h : ¬ CommandShaped (cstr data)) :
    (ReceiveDataStep s (some data) beyond).state = s ∧
      (ReceiveDataStep s (some data) beyond).out = [] :=
  ReceiveDataStep_unshaped s data beyond hlen h

/-- C5 witness: the datagram `hello world`. -/
theorem ReceiveData_ignores_other_text_witness :
    (ReceiveDataStep (SetLogLevel State.started .WARNING) (some "hello world".toList) []).state =
        SetLogLevel State.started .WARNING ∧
      (ReceiveDataStep (SetLogLevel State.started .WARNING) (some "hello world".toList) []).out
        = [] :=
  ReceiveData_ignores_other_text (SetLogLevel State.started .WARNING) "hello world".toList []
    (by decide)
    (by
      rintro ⟨w1, w2, w3, sign, ds, rest, h, -⟩
      have e1 : cstr "hello world".toList = 'h' :: "ello world".toList := by decide
      have e2 : "Set".toList = ['S', 'e', 't'] := rfl
      rw [e1, e2] at h
      simp at h)

/-- C6: for every level at or above the threshold and all strings of any
length, a `Log` call whose send succeeds sends exactly one datagram and leaves
the state unchanged; the payload is the first 1023 bytes of the record when the
record is longer than 1023 bytes and the whole record otherwise, and it is
never longer than 1023 bytes. -/
theorem Log_payload_bounded (s : State) (now : Tm) (level : LOG_LEVEL) (prog func : List Char)
    (line : Int) (message : List Char) (hT : s.log_level_current ≤ level.toInt)
    (hnow : now.calendar) :
    Log s now true level prog func line message =
        Outcome.returned (s,
          [if 1023 < (specRecord now level (cstr prog) (cstr func) line (cstr message)).length
            then (specRecord now level (cstr prog) (cstr func) line (cstr message)).take 1023
            else specRecord now level (cstr prog) (cstr func) line (cstr message)]) ∧
      (if 1023 < (specRecord now level (cstr prog) (cstr func) line (cstr message)).length
        then (specRecord now level (cstr prog) (cstr func) line (cstr message)).take 1023
        else specRecord now level (cstr prog) (cstr func) line (cstr message)).length ≤ 1023 := by
  rw [Log_passing s now true level prog func line message hT hnow, if_pos rfl]
  by_cases h : 1023 < (specRecord now level (cstr prog) (cstr func) line (cstr message)).length
  · rw [if_pos h]
    refine ⟨rfl, ?_⟩
    rw [List.length_take]
    exact Nat.min_le_left _ _
  · rw [if_neg h]
    refine ⟨?_, by omega⟩
    rw [List.take_of_length_le (by simp only [SIZE_BUF]; omega)]

/-- C6 witness: a message of 2000 bytes at threshold DEBUG; the payload is the
first 1023 bytes of the record. -/
theorem Log_payload_bounded_witness :
    1023 < (specRecord ⟨5, 4, 3, 2, 0, 125⟩ .CRITICAL (cstr "app".toList) (cstr "main".toList) 42
        (cstr (List.replicate 2000 'x'))).length ∧
      Log State.started ⟨5, 4, 3, 2, 0, 125⟩ true .CRITICAL "app".toList "main".toList 42
          (List.replicate 2000 'x') =
        Outcome.returned (State.started,
          [if 1023 < (specRecord ⟨5, 4, 3, 2, 0, 125⟩ .CRITICAL (cstr "app".toList)
              (cstr "main".toList) 42 (cstr (List.replicate 2000 'x'))).length
            then (specRecord ⟨5, 4, 3, 2, 0, 125⟩ .CRITICAL (cstr "app".toList)
              (cstr "main".toList) 42 (cstr (List.replicate 2000 'x'))).take 1023
            else specRecord ⟨5, 4, 3, 2, 0, 125⟩ .CRITICAL (cstr "app".toList)
              (cstr "main".toList) 42 (cstr (List.replicate 2000 'x'))]) :=
  ⟨by
      have hx : cstr (List.replicate 2000 'x') = List.replicate 2000 'x' :=
        cstr_eq_self _ (fun c hc => by rw [(List.mem_replicate.mp hc).2]; decide)
      rw [hx]
      simp only [specRecord, List.length_append, List.length_replicate]
      omega,
    (Log_payload_bounded State.started ⟨5, 4, 3, 2, 0, 125⟩ .CRITICAL "app".toList "main".toList 42
      (List.replicate 2000 'x') (by decide) (by decide)).1⟩

/-- C7: the threshold is DEBUG in the initial state and holds the value of one
of the four levels in every reachable state; from a reachable state every
`SetLogLevel`, every returning `Log` and every listener iteration, on any
receive result whatever, again gives such a state. -/
theorem threshold_always_valid (s : State) (h : Reachable s) :
    State.initial.log_level_current = LOG_LEVEL.DEBUG.toInt ∧
      s.valid ∧
      (∀ level : LOG_LEVEL, (SetLogLevel s level).valid) ∧
      (∀ (now : Tm) (send_ok : Bool) (level : LOG_LEVEL) (prog func : List Char) (line : Int)
          (message : List Char) (s' : State) (sent : List (List Char)),
        Log s now send_ok level prog func line message = Outcome.returned (s', sent) → s'.valid) ∧
      (∀ (recv : Option (List Char)) (beyond : List Char),
        (ReceiveDataStep s recv beyond).state.valid) := by
  have hv := reachable_valid s h
  refine ⟨rfl, hv, SetLogLevel_valid s, ?_, fun recv beyond => ReceiveDataStep_valid s recv beyond hv⟩
  intro now send_ok level prog func line message s' sent hr
  rw [Log_state s s' now send_ok level prog func line message sent hr]
  exact hv

/-- C7 witness: the state after the listener received `Set Log Level=7` and
the program then called `SetLogLevel(CRITICAL)`. -/
theorem threshold_always_valid_witness :
    Reachable (SetLogLevel
        (ReceiveDataStep State.initial (some "Set Log Level=7".toList) []).state .CRITICAL) ∧
      (SetLogLevel
        (ReceiveDataStep State.initial (some "Set Log Level=7".toList) []).state .CRITICAL).valid :=
  ⟨Reachable.setLogLevel _ _ (Reachable.receiveData _ _ _ Reachable.initial),
    (threshold_always_valid _
      (Reachable.setLogLevel _ _ (Reachable.receiveData _ _ _ Reachable.initial))).2.1⟩

/-- C8, the code at the failing input: `InitializeLog`, `ExitLog`, then a
second `InitializeLog` that returns successfully; `is_running` is false
afterwards, because only the static initialiser ever sets it, and the listener
loop just started runs no iteration on the datagram waiting for it. -/
theorem InitializeLog_after_ExitLog_not_running :
    InitializeLog State.initial okEnv = Outcome.returned State.started ∧
      InitializeLog (ExitLog State.started) okEnv =
        Outcome.returned { ExitLog State.started with
          socket_open := true, mutex_log_ready := true, listeners := 2 } ∧
      ({ ExitLog State.started with
          socket_open := true, mutex_log_ready := true, listeners := 2 } : State).is_running
        = false ∧
      (ReceiveData { ExitLog State.started with
          socket_open := true, mutex_log_ready := true, listeners := 2 }
        [(some "Set Log Level=2".toList, [])]).2.2 = 0 := by
  decide

/-- The running flag across `InitializeLog`: a call that returns leaves
`is_running` as it was; when the flag was true before the call, the listener
loop runs its iterations afterwards. -/
theorem InitializeLog_keeps_running_flag (s s' : State) (env : InitEnv)
    (h : InitializeLog s env = Outcome.returned s') :
    s'.is_running = s.is_running ∧
      (s.is_running = true →
        ∀ (recv : Option (List Char)) (beyond : List Char),
          (ReceiveData s' [(recv, beyond)]).2.2 = 1) := by
  have hf := (InitializeLog_fields s s' env h).1
  refine ⟨hf, ?_⟩
  intro hs recv beyond
  have hrun : s'.is_running = true := by rw [hf, hs]
  simp [ReceiveData, hrun]

/-- The running flag across the first `InitializeLog` of a process. -/
theorem InitializeLog_keeps_running_flag_witness :
    InitializeLog State.initial okEnv = Outcome.returned State.started ∧
      State.started.is_running = State.initial.is_running :=
  ⟨by decide, (InitializeLog_keeps_running_flag State.initial State.started okEnv (by decide)).1⟩

/-- C9, the code at the failing schedule: the listener passes its loop test,
`ExitLog` then runs to its end without waiting, because `recv_thread` is not
joinable, and the listener runs its loop body after the lock is destroyed and
the socket is closed. -/
theorem ExitLog_does_not_wait_for_listener :
    State.started.recv_thread_joinable = false ∧
      run ⟨State.started, .setFlag, .test, 0⟩
          [Tick.recv none [], Tick.main, Tick.main, Tick.main, Tick.main] =
        ⟨ExitLog State.started, .done, .body, 0⟩ ∧
      (ExitLog State.started).mutex_log_ready = false ∧
      (ExitLog State.started).socket_open = false ∧
      run ⟨State.started, .setFlag, .test, 0⟩
          [Tick.recv none [], Tick.main, Tick.main, Tick.main, Tick.main, Tick.recv none []] =
        ⟨ExitLog State.started, .done, .test, 1⟩ := by
  decide

/-- C10: for every level and every previous state, `SetLogLevel` leaves the
threshold at that level and every other part of the state as it was, and a
second `SetLogLevel` of the same level gives the same state as the first. -/
theorem SetLogLevel_sets_and_is_idempotent (s : State) (level : LOG_LEVEL) :
    (SetLogLevel s level).log_level_current = level.toInt ∧
      (SetLogLevel s level).fd_socket = s.fd_socket ∧
      (SetLogLevel s level).is_running = s.is_running ∧
      (SetLogLevel s level).recv_thread_joinable = s.recv_thread_joinable ∧
      (SetLogLevel s level).socket_open = s.socket_open ∧
      (SetLogLevel s level).mutex_log_ready = s.mutex_log_ready ∧
      (SetLogLevel s level).listeners = s.listeners ∧
      SetLogLevel (SetLogLevel s level) level = SetLogLevel s level :=
  ⟨rfl, rfl, rfl, rfl, rfl, rfl, rfl, rfl⟩

end Logger
